import Mathlib

/-!
Verification of imagestorage, `cmd/server/main.go`.

A shallow embedding of the server bootstrap.  `main` is a sequential program
whose effects (directory creation, database opening, constructor calls,
registrations, goroutine launches, signal wait, shutdown) are recorded in a
trace of `Action`s.  Values returned by constructors are identified by a
reference allocated from a counter, so "the same instance" means "the same
reference".
-/

namespace ImageStore

/-! ## Environment and configuration -/

/-- The process environment: a variable is either unset or set to a string. -/
abbrev Environ := String → Option String

/-- Go `os.Getenv`: the value of the variable, or `""` when it is unset. -/
def Getenv (env : Environ) (key : String) : String :=
  (env key).getD ""

/-- Setting or unsetting one variable of an environment. -/
def setenv (env : Environ) (key : String) (value : Option String) : Environ :=
  fun k => if k = key then value else env k

/-- Source `getEnv` (main.go:23-28). -/
def getEnv (env : Environ) (key fallback : String) : String :=
  let value := Getenv env key
  if value ≠ "" then value else fallback

/-- Source constant `dbPath`. -/
def dbPath : String := "./imagestore.db"

/-- Source constant `imagesDir`. -/
def imagesDir : String := "./images"

/-- The local `baseURL` of `main` (main.go:31). -/
def baseURL (env : Environ) : String := getEnv env "BASE_URL" "http://localhost:8087"

/-- The local `bindAddr` of `main` (main.go:33). -/
def bindAddr (env : Environ) : String := getEnv env "BIND_ADDR" "127.0.0.1"

/-- The local `grpcAddr` of `main` (main.go:34). -/
def grpcAddr (env : Environ) : String := bindAddr env ++ ":50051"

/-- The local `httpAddr` of `main` (main.go:35). -/
def httpAddr (env : Environ) : String := bindAddr env ++ ":8087"

/-- The text after the last `:` of an address or URL (its port), used only to
compare the default base URL with the HTTP listen address. -/
def portOf (addr : String) : String :=
  String.mk ((addr.toList.reverse.takeWhile (fun c => c ≠ ':')).reverse)

/-! ## Effects of `main` -/

/-- Reference to a value returned by a constructor call. -/
abbrev Ref := Nat

/-- The two signals `main` subscribes to with `signal.Notify`. -/
inductive Signal
  | SIGINT
  | SIGTERM
deriving DecidableEq

/-- The two handler methods `main` registers on the HTTP mux. -/
inductive HandlerMethod
  | ServeHTTP
  | HealthCheck
deriving DecidableEq

/-- A Go method value `recv.method`. -/
structure HandlerFunc where
  recv : Ref
  method : HandlerMethod
deriving DecidableEq

/-- Statements of the two goroutine bodies launched by `main`. -/
inductive GoStep
  | netListen (network addr : String)
  | logPrintf (format arg : String)
  | grpcServe (srv : Ref)
  | httpServer (addr : String) (mux : Ref) (readTimeout writeTimeout idleTimeout : Nat)
  | listenAndServe
deriving DecidableEq

/-- Result of `internal.NewDB`: a database handle or an error. -/
inductive DBResult
  | ok (db : Ref)
  | error (err : String)
deriving DecidableEq

/-- Effects `main` can perform.  `httpShutdown` and `httpClose` stand for
`(*http.Server).Shutdown` and `(*http.Server).Close`, the only library calls that
stop an HTTP server. -/
inductive Action
  | mkdirAll (path : String) (perm : Nat) (err : Option String)
  | fatalf (format : String) (args : List String)
  | newDB (path : String) (res : DBResult)
  | newStorage (dir : String) (res : Ref)
  | newImageHandler (db storage : Ref) (baseURL : String) (res : Ref)
  | grpcNewServer (res : Ref)
  | registerImageServiceServer (srv handler : Ref)
  | reflectionRegister (srv : Ref)
  | newServeMux (res : Ref)
  | handleFunc (mux : Ref) (pattern : String) (fn : HandlerFunc)
  | go (body : List GoStep)
  | signalNotify (sigs : List Signal)
  | recvQuit (sig : Signal)
  | logPrintln (msg : String)
  | gracefulStop (srv : Ref)
  | httpShutdown
  | httpClose
  | dbClose (db : Ref)
deriving DecidableEq

/-- Everything outside the program that decides how a run of `main` goes. -/
structure World where
  env : Environ
  mkdirAllErr : Option String
  newDBErr : Option String
  signal : Option Signal

/-- Why a run stops before the end of `main`: `log.Fatalf` exits with status 1,
and `<-quit` blocks for ever when no subscribed signal arrives. -/
inductive Halt
  | exit (code : Nat)
  | block
deriving DecidableEq

/-- State threaded through `main`: next free reference, trace so far, and the
stack of deferred calls. -/
structure ProcState where
  next : Ref := 0
  trace : List Action := []
  deferred : List Action := []

/-- Result of running a piece of `main`: a value and the new state, or a halt. -/
inductive Step (α : Type)
  | ok (a : α) (s : ProcState)
  | halt (h : Halt) (s : ProcState)

/-- Sequential programs over `ProcState` that may halt. -/
def Proc (α : Type) : Type := ProcState → Step α

instance : Monad Proc where
  pure a := fun s => .ok a s
  bind m f := fun s =>
    match m s with
    | .ok a s1 => f a s1
    | .halt h s1 => .halt h s1

/-- Appends one effect to the trace. -/
def emit (a : Action) : Proc Unit :=
  fun s => .ok () { s with trace := s.trace ++ [a] }

/-- Allocates the reference of a newly constructed value. -/
def fresh : Proc Ref :=
  fun s => .ok s.next { s with next := s.next + 1 }

/-- Stops the run. -/
def halt {α : Type} (h : Halt) : Proc α :=
  fun s => .halt h s

/-- Go `log.Fatalf`: logs, then `os.Exit(1)`; deferred calls do not run. -/
def logFatalf {α : Type} (format : String) (args : List String) : Proc α := do
  emit (.fatalf format args)
  halt (.exit 1)

/-- Go `defer`. -/
def deferCall (a : Action) : Proc Unit :=
  fun s => .ok () { s with deferred := a :: s.deferred }

/-- Body of the first goroutine (main.go:62-71). -/
def grpcGoroutine (grpcAddr : String) (grpcServer : Ref) : List GoStep :=
  [ .netListen "tcp" grpcAddr,
    .logPrintf "gRPC server listening on %s" grpcAddr,
    .grpcServe grpcServer ]

/-- Body of the second goroutine (main.go:73-85). -/
def httpGoroutine (httpAddr : String) (httpMux : Ref) : List GoStep :=
  [ .httpServer httpAddr httpMux 15 15 60,
    .logPrintf "HTTP server listening on %s" httpAddr,
    .listenAndServe ]

/-- Source `main` (main.go:30-94). -/
def main (w : World) : Proc Unit := do
  let baseURL := getEnv w.env "BASE_URL" "http://localhost:8087"
  let bindAddr := getEnv w.env "BIND_ADDR" "127.0.0.1"
  let grpcAddr := bindAddr ++ ":50051"
  let httpAddr := bindAddr ++ ":8087"
  emit (.mkdirAll imagesDir 0o750 w.mkdirAllErr)
  if let some err := w.mkdirAllErr then
    logFatalf "failed to create images directory: %v" [err]
  let db ← match w.newDBErr with
    | some err => do
        emit (.newDB dbPath (.error err))
        logFatalf "failed to create database: %v" [err]
    | none => do
        let db ← fresh
        emit (.newDB dbPath (.ok db))
        pure db
  deferCall (.dbClose db)
  let storage ← fresh
  emit (.newStorage imagesDir storage)
  let handler ← fresh
  emit (.newImageHandler db storage baseURL handler)
  let grpcServer ← fresh
  emit (.grpcNewServer grpcServer)
  emit (.registerImageServiceServer grpcServer handler)
  emit (.reflectionRegister grpcServer)
  let httpMux ← fresh
  emit (.newServeMux httpMux)
  emit (.handleFunc httpMux "/images/" ⟨handler, .ServeHTTP⟩)
  emit (.handleFunc httpMux "/health" ⟨handler, .HealthCheck⟩)
  emit (.go (grpcGoroutine grpcAddr grpcServer))
  emit (.go (httpGoroutine httpAddr httpMux))
  emit (.signalNotify [.SIGINT, .SIGTERM])
  match w.signal with
  | none => halt .block
  | some sig => emit (.recvQuit sig)
  emit (.logPrintln "shutting down servers...")
  emit (.gracefulStop grpcServer)
  emit (.logPrintln "servers stopped")

/-- How a run of the process ended. -/
inductive Outcome
  | returned
  | exited (code : Nat)
  | blocked
deriving DecidableEq

/-- A complete run: the effects in order and how the run ended. -/
structure Run where
  trace : List Action
  outcome : Outcome
deriving DecidableEq

/-- Runs `main` from the initial state; when `main` returns normally the
deferred calls run last, most recent first. -/
def runMain (w : World) : Run :=
  match main w {} with
  | .ok () s => { trace := s.trace ++ s.deferred, outcome := .returned }
  | .halt (.exit code) s => { trace := s.trace, outcome := .exited code }
  | .halt .block s => { trace := s.trace, outcome := .blocked }

/-! ## Reading a trace -/

/-- Part of the trace after the signal was received from `quit`. -/
def afterSignal : List Action → List Action
  | [] => []
  | .recvQuit _ :: rest => rest
  | _ :: rest => afterSignal rest

/-- Database handles returned by successful `internal.NewDB` calls. -/
def databasesOpened : List Action → List Ref
  | [] => []
  | .newDB _ (.ok db) :: rest => db :: databasesOpened rest
  | _ :: rest => databasesOpened rest

/-- Storage handles returned by `internal.NewStorage` calls. -/
def storagesBuilt : List Action → List Ref
  | [] => []
  | .newStorage _ st :: rest => st :: storagesBuilt rest
  | _ :: rest => storagesBuilt rest

/-- A call `internal.NewImageHandler(db, storage, baseURL)` and its result. -/
structure HandlerCall where
  db : Ref
  storage : Ref
  baseURL : String
  handler : Ref
deriving DecidableEq

/-- All `internal.NewImageHandler` calls of a trace. -/
def handlersBuilt : List Action → List HandlerCall
  | [] => []
  | .newImageHandler db st base h :: rest => ⟨db, st, base, h⟩ :: handlersBuilt rest
  | _ :: rest => handlersBuilt rest

/-- Handlers registered on a gRPC server with `pb.RegisterImageServiceServer`. -/
def rpcRegistrations : List Action → List Ref
  | [] => []
  | .registerImageServiceServer _ h :: rest => h :: rpcRegistrations rest
  | _ :: rest => rpcRegistrations rest

/-- One registration on a `http.ServeMux`. -/
structure MuxEntry where
  pattern : String
  fn : HandlerFunc
deriving DecidableEq

/-- Registrations made on mux `m` with `HandleFunc`, in program order. -/
def muxEntries (m : Ref) : List Action → List MuxEntry
  | [] => []
  | .handleFunc m1 pattern fn :: rest =>
      if m1 = m then ⟨pattern, fn⟩ :: muxEntries m rest else muxEntries m rest
  | _ :: rest => muxEntries m rest

/-- The mux given as `Handler` to the `http.Server` of a goroutine body. -/
def servedMuxOf : List GoStep → Option Ref
  | [] => none
  | .httpServer _ mux _ _ _ :: _ => some mux
  | _ :: rest => servedMuxOf rest

/-- The mux served by the HTTP server that `main` launches. -/
def servedMux : List Action → Option Ref
  | [] => none
  | .go body :: rest => (servedMuxOf body).orElse fun _ => servedMux rest
  | _ :: rest => servedMux rest

/-- The HTTP surface wired by a run: the registrations of the served mux. -/
def httpSurface (t : List Action) : List MuxEntry :=
  match servedMux t with
  | none => []
  | some m => muxEntries m t

/-- Every `pb.RegisterImageServiceServer(srv, handler)` call of a trace, as the
pair of the server and the handler registered on it. -/
def serviceRegistrations : List Action → List (Ref × Ref)
  | [] => []
  | .registerImageServiceServer srv h :: rest => (srv, h) :: serviceRegistrations rest
  | _ :: rest => serviceRegistrations rest

/-- Handlers registered on gRPC server `srv` with
`pb.RegisterImageServiceServer`, in program order. -/
def rpcEntries (srv : Ref) : List Action → List Ref
  | [] => []
  | .registerImageServiceServer s h :: rest =>
      if s = srv then h :: rpcEntries srv rest else rpcEntries srv rest
  | _ :: rest => rpcEntries srv rest

/-- The gRPC server a goroutine body serves with `Serve`. -/
def servedGrpcOf : List GoStep → Option Ref
  | [] => none
  | .grpcServe srv :: _ => some srv
  | _ :: rest => servedGrpcOf rest

/-- The gRPC server served by the goroutine that `main` launches. -/
def servedGrpc : List Action → Option Ref
  | [] => none
  | .go body :: rest => (servedGrpcOf body).orElse fun _ => servedGrpc rest
  | _ :: rest => servedGrpc rest

/-- The RPC surface wired by a run: the handlers registered on the served gRPC
server. -/
def rpcSurface (t : List Action) : List Ref :=
  match servedGrpc t with
  | none => []
  | some srv => rpcEntries srv t

/-- Addresses the goroutine bodies listen on. -/
def listenAddrsOf : List GoStep → List String
  | [] => []
  | .netListen _ addr :: rest => addr :: listenAddrsOf rest
  | .httpServer addr _ _ _ _ :: rest => addr :: listenAddrsOf rest
  | _ :: rest => listenAddrsOf rest

/-- Addresses of all listeners launched by a trace, in launch order. -/
def listenAddrs : List Action → List String
  | [] => []
  | .go body :: rest => listenAddrsOf body ++ listenAddrs rest
  | _ :: rest => listenAddrs rest

/-- The action stops the HTTP server. -/
def Action.stopsHTTP : Action → Bool
  | .httpShutdown => true
  | .httpClose => true
  | _ => false

/-- The action gracefully stops gRPC server `srv`. -/
def Action.stopsGRPC (srv : Ref) : Action → Bool
  | .gracefulStop s => s = srv
  | _ => false

/-! ## Go `net/http` request routing

`http.ServeMux` is library code.  The model below follows its documented
behaviour for the kind of pattern `main` registers: a path-only pattern without
wildcards.  A pattern ending in `/` names a subtree and matches every path it
is a prefix of; any other pattern matches only itself; the longest matching
pattern wins; a path that is not in canonical form is answered with a redirect
to the cleaned path; a request for a subtree root without its trailing slash is
redirected to the root.
-/

namespace Http

/-- Splits a path at every `/`. -/
def splitSlash : List Char → List (List Char)
  | [] => [[]]
  | c :: cs =>
      if c = '/' then [] :: splitSlash cs
      else
        match splitSlash cs with
        | [] => [[c]]
        | e :: es => (c :: e) :: es

/-- Element pass of Go `path.Clean` on a rooted path: empty and `.` elements are
dropped, `..` removes the element before it (or nothing at the root). -/
def cleanElems (stack : List (List Char)) : List (List Char) → List (List Char)
  | [] => stack
  | e :: es =>
      if e = [] ∨ e = ['.'] then cleanElems stack es
      else if e = ['.', '.'] then cleanElems stack.dropLast es
      else cleanElems (stack ++ [e]) es

/-- Joins path elements into a rooted path. -/
def joinElems (es : List (List Char)) : List Char :=
  es.foldr (fun e acc => '/' :: e ++ acc) []

/-- Go `path.Clean` on a rooted path. -/
def pathClean (p : List Char) : List Char :=
  match cleanElems [] (splitSlash p) with
  | [] => ['/']
  | es => joinElems es

/-- Go `net/http` `cleanPath`. -/
def cleanPath (p : List Char) : List Char :=
  if p = [] then ['/']
  else
    let p1 := if p.head? ≠ some '/' then '/' :: p else p
    let np := pathClean p1
    if p1.getLast? = some '/' ∧ np ≠ ['/'] then
      if p1.length = np.length + 1 ∧ np.isPrefixOf p1 then p1 else np ++ ['/']
    else np

/-- A pattern ending in `/` matches every path below it, any other pattern
matches exactly itself. -/
def patternMatches (pattern : String) (path : List Char) : Bool :=
  if pattern.toList.getLast? = some '/' then pattern.toList.isPrefixOf path
  else pattern.toList == path

/-- Most specific (longest) matching registration. -/
def bestMatch (entries : List MuxEntry) (path : List Char) : Option MuxEntry :=
  entries.foldl
    (fun best e =>
      if patternMatches e.pattern path then
        match best with
        | none => some e
        | some b => if b.pattern.length < e.pattern.length then some e else some b
      else best)
    none

/-- What the mux answers a request with. -/
inductive Dispatch
  | handler (pattern : String) (fn : HandlerFunc)
  | redirect (location : String)
  | notFound
deriving DecidableEq

/-- Go `(*ServeMux).Handler` for a request with the given method and path. -/
def dispatch (entries : List MuxEntry) (method path : String) : Dispatch :=
  let p := if method = "CONNECT" then path.toList else cleanPath path.toList
  let n := bestMatch entries p
  let exact := n.any fun e => e.pattern.toList == p
  if !exact ∧ p.getLast? ≠ some '/' ∧ entries.any (fun e => e.pattern.toList == p ++ ['/']) then
    .redirect (String.mk (p ++ ['/']))
  else if p ≠ path.toList then .redirect (String.mk p)
  else
    match n with
    | none => .notFound
    | some e => .handler e.pattern e.fn

end Http

/-! ## The Image Handler of package `internal`

Package `internal` (database, storage, handler) is not part of the sources at
hand; only its caller `main` is.  The definitions of this section follow the
specification's description of the handler and its two stores.
-/

namespace Spec

/-- Modelled from the spec: the persisted fields of an Image Record kept by the
Metadata Store of the absent package `internal`; `url` is derived, not persisted. -/
structure MetaRow where
  content_type : String
  size_bytes : Nat
  created_at : Nat
deriving DecidableEq

/-- Modelled from the spec: the Image Record returned on the RPC surface of the
absent package `internal` (`id`, `content_type`, `size_bytes`, `created_at`, `url`). -/
structure ImageRecord where
  id : String
  content_type : String
  size_bytes : Nat
  created_at : Nat
  url : String
deriving DecidableEq

/-- Modelled from the spec: the state of the Content Store and the Metadata Store
of the absent package `internal`, both keyed by the same identifier. -/
structure Stores where
  content : List (String × List UInt8)
  metadata : List (String × MetaRow)
deriving DecidableEq

/-- Modelled from the spec: the error taxonomy of the absent package `internal`
as far as the modelled operations raise it. -/
inductive Error
  | NotFound
  | Conflict
  | InvalidInput
deriving DecidableEq

/-- Modelled from the spec: Content Store `Put(id, bytes)` of the absent package
`internal`; writes `bytes` under `id`, rejected if `id` already exists. -/
def ContentStore.Put (c : List (String × List UInt8)) (id : String) (bytes : List UInt8) :
    Except Error (List (String × List UInt8)) :=
  if (c.lookup id).isSome then .error .Conflict else .ok ((id, bytes) :: c)

/-- Modelled from the spec: Content Store `Delete(id)` of the absent package
`internal`; removes the bytes for `id`, `NotFound` when there are none. -/
def ContentStore.Delete (c : List (String × List UInt8)) (id : String) :
    Except Error (List (String × List UInt8)) :=
  if (c.lookup id).isSome then .ok (c.filter fun kv => kv.1 ≠ id) else .error .NotFound

/-- Modelled from the spec: Metadata Store `Insert(record)` of the absent package
`internal`; fails with `Conflict` if `id` is already present. -/
def MetadataStore.Insert (m : List (String × MetaRow)) (id : String) (row : MetaRow) :
    Except Error (List (String × MetaRow)) :=
  if (m.lookup id).isSome then .error .Conflict else .ok ((id, row) :: m)

/-- Modelled from the spec: Metadata Store `Get(id)` of the absent package
`internal`; the record, or `NotFound`. -/
def MetadataStore.Get (m : List (String × MetaRow)) (id : String) : Except Error MetaRow :=
  match m.lookup id with
  | some row => .ok row
  | none => .error .NotFound

/-- Modelled from the spec: the Image Handler of the absent package `internal`,
constructed once from the configured base URL; what counts as valid input is
left open by the spec and is a parameter here. -/
structure ImageHandler where
  baseURL : String
  validate : String → List UInt8 → Bool

/-- Modelled from the spec: URL computation of the absent handler,
`base_url + "/images/" + id`. -/
def ImageHandler.url (h : ImageHandler) (id : String) : String :=
  h.baseURL ++ "/images/" ++ id

/-- Modelled from the spec: `CreateImage(content_type, bytes)` of the absent
handler.  The freshly generated identifier `newId` and the clock reading `now`
are inputs.  Validates, calls Content Store `Put`, then Metadata Store `Insert`;
when `Insert` fails it attempts one compensating delete of the blob and reports
the original failure; on success returns the record with its computed `url`. -/
def ImageHandler.CreateImage (h : ImageHandler) (s : Stores) (newId : String) (now : Nat)
    (content_type : String) (bytes : List UInt8) : Except Error ImageRecord × Stores :=
  if h.validate content_type bytes = false then (.error .InvalidInput, s)
  else
    match ContentStore.Put s.content newId bytes with
    | .error e => (.error e, s)
    | .ok c1 =>
        match MetadataStore.Insert s.metadata newId ⟨content_type, bytes.length, now⟩ with
        | .error e =>
            match ContentStore.Delete c1 newId with
            | .ok c2 => (.error e, { s with content := c2 })
            | .error _ => (.error e, { s with content := c1 })
        | .ok m1 =>
            (.ok ⟨newId, content_type, bytes.length, now, h.url newId⟩,
              { content := c1, metadata := m1 })

/-- Modelled from the spec: `GetImage(id)` of the absent handler; the stored
record with `url` computed at read time, or `NotFound`. -/
def ImageHandler.GetImage (h : ImageHandler) (s : Stores) (id : String) :
    Except Error ImageRecord :=
  match MetadataStore.Get s.metadata id with
  | .error e => .error e
  | .ok row => .ok ⟨id, row.content_type, row.size_bytes, row.created_at, h.url id⟩

/-- Modelled from the spec: an HTTP response of the absent handler, status and body. -/
structure Response where
  status : Nat
  body : List UInt8
deriving DecidableEq

/-- Modelled from the spec: `HealthCheck` of the absent handler, the liveness
probe; returns success (200, empty body) with no dependency checks. -/
def ImageHandler.HealthCheck (_h : ImageHandler) (_s : Stores) : Response :=
  { status := 200, body := [] }

end Spec

/-- Modelled from the spec: `internal.NewImageHandler` of the absent package
`internal`; the handler keeps the base URL it is given (the two store handles
are represented by the `Stores` state passed to each operation). -/
def HandlerCall.toSpec (c : HandlerCall) (validate : String → List UInt8 → Bool) :
    Spec.ImageHandler :=
  { baseURL := c.baseURL, validate := validate }

/-! ## Runs of `main` in closed form -/

/-- Effects of a successful start-up, up to the subscription to signals. -/
def startupTrace (env : Environ) : List Action :=
  [ .mkdirAll imagesDir 0o750 none,
    .newDB dbPath (.ok 0),
    .newStorage imagesDir 1,
    .newImageHandler 0 1 (baseURL env) 2,
    .grpcNewServer 3,
    .registerImageServiceServer 3 2,
    .reflectionRegister 3,
    .newServeMux 4,
    .handleFunc 4 "/images/" ⟨2, .ServeHTTP⟩,
    .handleFunc 4 "/health" ⟨2, .HealthCheck⟩,
    .go (grpcGoroutine (grpcAddr env) 3),
    .go (httpGoroutine (httpAddr env) 4),
    .signalNotify [.SIGINT, .SIGTERM] ]

/-- Effects of `main` after a signal was received, deferred calls included. -/
def shutdownTrace : List Action :=
  [ .logPrintln "shutting down servers...",
    .gracefulStop 3,
    .logPrintln "servers stopped",
    .dbClose 0 ]

/-! ## Theorems -/

/-- A run that starts up and receives a signal. -/
theorem runMain_signal (env : Environ) (sig : Signal) :
    runMain ⟨env, none, none, some sig⟩ =
      { trace := startupTrace env ++ .recvQuit sig :: shutdownTrace, outcome := .returned } := by
  simp [runMain, main, emit, fresh, deferCall, halt, bind, pure, startupTrace, shutdownTrace,
    baseURL, grpcAddr, httpAddr, bindAddr]

/-- A run that starts up and never receives a signal. -/
theorem runMain_blocked (env : Environ) :
    runMain ⟨env, none, none, none⟩ = { trace := startupTrace env, outcome := .blocked } := by
  simp [runMain, main, emit, fresh, deferCall, halt, bind, pure, startupTrace,
    baseURL, grpcAddr, httpAddr, bindAddr]

/-- A run in which `os.MkdirAll` fails. -/
theorem runMain_mkdir_error (env : Environ) (err : String) (dbErr : Option String)
    (sig : Option Signal) :
    runMain ⟨env, some err, dbErr, sig⟩ =
      { trace := [ .mkdirAll imagesDir 0o750 (some err),
                   .fatalf "failed to create images directory: %v" [err] ],
        outcome := .exited 1 } := by
  simp [runMain, main, emit, logFatalf, halt, bind, pure]

/-- A run in which `internal.NewDB` fails. -/
theorem runMain_db_error (env : Environ) (err : String) (sig : Option Signal) :
    runMain ⟨env, none, some err, sig⟩ =
      { trace := [ .mkdirAll imagesDir 0o750 none,
                   .newDB dbPath (.error err),
                   .fatalf "failed to create database: %v" [err] ],
        outcome := .exited 1 } := by
  simp [runMain, main, emit, logFatalf, halt, bind, pure]

/-- Constructor calls and registrations of a run that gets past the database. -/
theorem wiring_of_startup (env : Environ) (sig : Option Signal) :
    databasesOpened (runMain ⟨env, none, none, sig⟩).trace = [0] ∧
    storagesBuilt (runMain ⟨env, none, none, sig⟩).trace = [1] ∧
    handlersBuilt (runMain ⟨env, none, none, sig⟩).trace = [⟨0, 1, baseURL env, 2⟩] ∧
    rpcRegistrations (runMain ⟨env, none, none, sig⟩).trace = [2] ∧
    httpSurface (runMain ⟨env, none, none, sig⟩).trace =
      [⟨"/images/", ⟨2, .ServeHTTP⟩⟩, ⟨"/health", ⟨2, .HealthCheck⟩⟩] := by
  cases sig with
  | none =>
      rw [runMain_blocked]
      simp [startupTrace, databasesOpened, storagesBuilt, handlersBuilt, rpcRegistrations,
        httpSurface, servedMux, servedMuxOf, muxEntries, grpcGoroutine, httpGoroutine]
  | some sg =>
      rw [runMain_signal]
      simp [startupTrace, shutdownTrace, databasesOpened, storagesBuilt, handlersBuilt,
        rpcRegistrations, httpSurface, servedMux, servedMuxOf, muxEntries, grpcGoroutine,
        httpGoroutine]

/-- The gRPC side of a run that gets past the database: the served server and
the registrations made on it. -/
theorem rpc_wiring_of_startup (env : Environ) (sig : Option Signal) :
    servedGrpc (runMain ⟨env, none, none, sig⟩).trace = some 3 ∧
    serviceRegistrations (runMain ⟨env, none, none, sig⟩).trace = [(3, 2)] ∧
    rpcSurface (runMain ⟨env, none, none, sig⟩).trace = [2] ∧
    servedMux (runMain ⟨env, none, none, sig⟩).trace = some 4 := by
  cases sig with
  | none =>
      rw [runMain_blocked]
      simp [startupTrace, servedGrpc, servedGrpcOf, serviceRegistrations, rpcSurface,
        rpcEntries, servedMux, servedMuxOf, grpcGoroutine, httpGoroutine]
  | some sg =>
      rw [runMain_signal]
      simp [startupTrace, shutdownTrace, servedGrpc, servedGrpcOf, serviceRegistrations,
        rpcSurface, rpcEntries, servedMux, servedMuxOf, grpcGoroutine, httpGoroutine]

/-- C7: `getEnv key fallback` is the environment's value when that value is a
non-empty string, and `fallback` in every other case (unset, or set to the empty
string); hence the result is non-empty whenever `fallback` is. -/
theorem getEnv_spec (env : Environ) (key fallback : String) :
    (∀ v, env key = some v → v ≠ "" → getEnv env key fallback = v) ∧
    (env key = none → getEnv env key fallback = fallback) ∧
    (env key = some "" → getEnv env key fallback = fallback) ∧
    (fallback ≠ "" → getEnv env key fallback ≠ "") := by
  refine ⟨?_, ?_, ?_, ?_⟩
  · intro v hv hne
    simp [getEnv, Getenv, hv, hne]
  · intro h
    simp [getEnv, Getenv, h]
  · intro h
    simp [getEnv, Getenv, h]
  · intro hf
    unfold getEnv
    by_cases h : Getenv env key = ""
    · simp [h, hf]
    · simp [h]

/-- Instance of `getEnv_spec` on an environment that sets `BIND_ADDR` to
`0.0.0.0` and `BASE_URL` to the empty string. -/
theorem getEnv_spec_witness :
    getEnv (fun k => if k = "BIND_ADDR" then some "0.0.0.0" else if k = "BASE_URL" then some "" else none)
        "BIND_ADDR" "127.0.0.1" = "0.0.0.0" ∧
    getEnv (fun k => if k = "BIND_ADDR" then some "0.0.0.0" else if k = "BASE_URL" then some "" else none)
        "BASE_URL" "http://localhost:8087" = "http://localhost:8087" ∧
    getEnv (fun k => if k = "BIND_ADDR" then some "0.0.0.0" else if k = "BASE_URL" then some "" else none)
        "BASE_URL" "http://localhost:8087" ≠ "" :=
  ⟨(getEnv_spec _ "BIND_ADDR" "127.0.0.1").1 "0.0.0.0" (by decide) (by decide),
   (getEnv_spec _ "BASE_URL" "http://localhost:8087").2.2.1 (by decide),
   (getEnv_spec _ "BASE_URL" "http://localhost:8087").2.2.2 (by decide)⟩

/-- C8: for every environment the listeners launched by `main` are
`b ++ ":50051"` (gRPC) and `b ++ ":8087"` (HTTP) for the one host
`b = getEnv "BIND_ADDR" "127.0.0.1"`, the two addresses differ, and changing
`BASE_URL` changes neither; with `BASE_URL` and `BIND_ADDR` unset or empty the
base URL is `http://localhost:8087` and the HTTP listen address is
`127.0.0.1:8087`, both with port `8087`. -/
theorem listen_addrs_spec (env : Environ) (sig : Option Signal) :
    listenAddrs (runMain ⟨env, none, none, sig⟩).trace = [grpcAddr env, httpAddr env] ∧
    grpcAddr env = getEnv env "BIND_ADDR" "127.0.0.1" ++ ":50051" ∧
    httpAddr env = getEnv env "BIND_ADDR" "127.0.0.1" ++ ":8087" ∧
    grpcAddr env ≠ httpAddr env ∧
    (∀ v, grpcAddr (setenv env "BASE_URL" v) = grpcAddr env ∧
          httpAddr (setenv env "BASE_URL" v) = httpAddr env) ∧
    (Getenv env "BASE_URL" = "" → Getenv env "BIND_ADDR" = "" →
      baseURL env = "http://localhost:8087" ∧ httpAddr env = "127.0.0.1:8087" ∧
      portOf (baseURL env) = portOf (httpAddr env) ∧ portOf (httpAddr env) = "8087") := by
  refine ⟨?_, rfl, rfl, ?_, ?_, ?_⟩
  · cases sig with
    | none =>
        rw [runMain_blocked]
        simp [startupTrace, listenAddrs, listenAddrsOf, grpcGoroutine, httpGoroutine]
    | some sg =>
        rw [runMain_signal]
        simp [startupTrace, shutdownTrace, listenAddrs, listenAddrsOf, grpcGoroutine,
          httpGoroutine]
  · intro h
    have h2 := congrArg String.data h
    simp [grpcAddr, httpAddr] at h2
  · intro v
    simp [grpcAddr, httpAddr, bindAddr, getEnv, Getenv, setenv]
  · intro h1 h2
    have hb : baseURL env = "http://localhost:8087" := by simp [baseURL, getEnv, h1]
    have hh : httpAddr env = "127.0.0.1:8087" := by
      simp [httpAddr, bindAddr, getEnv, h2]
    rw [hb, hh]
    refine ⟨rfl, rfl, ?_, ?_⟩ <;> decide

/-- Instance of `listen_addrs_spec` on the empty environment and `SIGTERM`. -/
theorem listen_addrs_spec_witness :
    listenAddrs (runMain ⟨fun _ => none, none, none, some .SIGTERM⟩).trace =
        ["127.0.0.1:50051", "127.0.0.1:8087"] ∧
    baseURL (fun _ => none) = "http://localhost:8087" ∧
    portOf (baseURL (fun _ => none)) = portOf (httpAddr (fun _ => none)) := by
  have h := listen_addrs_spec (fun _ => none) (some .SIGTERM)
  have h6 := h.2.2.2.2.2 (by decide) (by decide)
  refine ⟨?_, h6.1, h6.2.2.1⟩
  rw [h.1]
  decide

/-- C2: a run of `main` never constructs more than one handler, database or
storage; a run that gets past the database constructs exactly one database
handle, one storage handle and one handler, the handler is built from these two
handles and the base URL, and that handler is the one registered on the RPC
surface (the only `RegisterImageServiceServer` call of the run registers it on
the gRPC server that the launched goroutine serves) and the receiver of both
functions registered on the HTTP mux that the launched HTTP server serves. -/
theorem single_handler_wiring (env : Environ) (sig : Option Signal) :
    (∀ w : World,
      (handlersBuilt (runMain w).trace).length ≤ 1 ∧
      (databasesOpened (runMain w).trace).length ≤ 1 ∧
      (storagesBuilt (runMain w).trace).length ≤ 1) ∧
    ∃ db st h srv,
      databasesOpened (runMain ⟨env, none, none, sig⟩).trace = [db] ∧
      storagesBuilt (runMain ⟨env, none, none, sig⟩).trace = [st] ∧
      handlersBuilt (runMain ⟨env, none, none, sig⟩).trace = [⟨db, st, baseURL env, h⟩] ∧
      servedGrpc (runMain ⟨env, none, none, sig⟩).trace = some srv ∧
      serviceRegistrations (runMain ⟨env, none, none, sig⟩).trace = [(srv, h)] ∧
      rpcSurface (runMain ⟨env, none, none, sig⟩).trace = [h] ∧
      rpcRegistrations (runMain ⟨env, none, none, sig⟩).trace = [h] ∧
      httpSurface (runMain ⟨env, none, none, sig⟩).trace =
        [⟨"/images/", ⟨h, .ServeHTTP⟩⟩, ⟨"/health", ⟨h, .HealthCheck⟩⟩] := by
  constructor
  · rintro ⟨e, mk, dbe, sg⟩
    cases mk with
    | some err =>
        rw [runMain_mkdir_error]
        simp [handlersBuilt, databasesOpened, storagesBuilt]
    | none =>
        cases dbe with
        | some err =>
            rw [runMain_db_error]
            simp [handlersBuilt, databasesOpened, storagesBuilt]
        | none =>
            obtain ⟨h1, h2, h3, -, -⟩ := wiring_of_startup e sg
            simp [h1, h2, h3]
  · obtain ⟨h1, h2, h3, h4, h5⟩ := wiring_of_startup env sig
    obtain ⟨g1, g2, g3, -⟩ := rpc_wiring_of_startup env sig
    exact ⟨0, 1, 2, 3, h1, h2, h3, g1, g2, g3, h4, h5⟩

/-- C1 (behaviour of the code): after SIGINT or SIGTERM, `main` logs, calls
`GracefulStop` on the gRPC server it launched, logs again and closes the
database, then returns; no action of the whole run stops the HTTP server, so
the graceful shutdown is issued for the gRPC surface only. -/
theorem shutdown_omits_http (env : Environ) (sig : Signal) :
    (runMain ⟨env, none, none, some sig⟩).outcome = .returned ∧
    Action.go (grpcGoroutine (grpcAddr env) 3) ∈ (runMain ⟨env, none, none, some sig⟩).trace ∧
    Action.go (httpGoroutine (httpAddr env) 4) ∈ (runMain ⟨env, none, none, some sig⟩).trace ∧
    afterSignal (runMain ⟨env, none, none, some sig⟩).trace =
      [ .logPrintln "shutting down servers...",
        .gracefulStop 3,
        .logPrintln "servers stopped",
        .dbClose 0 ] ∧
    (afterSignal (runMain ⟨env, none, none, some sig⟩).trace).any (Action.stopsGRPC 3) = true ∧
    (runMain ⟨env, none, none, some sig⟩).trace.any Action.stopsHTTP = false := by
  rw [runMain_signal]
  simp [startupTrace, shutdownTrace, afterSignal, Action.stopsGRPC, Action.stopsHTTP]

/-- A path element without `/` is not split. -/
theorem Http.splitSlash_of_not_mem (l : List Char) (h : '/' ∉ l) : Http.splitSlash l = [l] := by
  induction l with
  | nil => rfl
  | cons c cs ih =>
      have hc : c ≠ '/' := fun e => h (by simp [e])
      have hcs : '/' ∉ cs := fun m => h (by simp [m])
      simp [Http.splitSlash, hc, ih hcs]

/-- The path `/images/<id>` is already clean when `id` is a single, non-empty
element other than `.` and `..`. -/
theorem Http.cleanPath_images (id : List Char) (hne : id ≠ []) (hslash : '/' ∉ id)
    (hdot : id ≠ ['.']) (hdotdot : id ≠ ['.', '.']) :
    Http.cleanPath ("/images/".toList ++ id) = "/images/".toList ++ id := by
  have himg : "/images/".toList = ['/', 'i', 'm', 'a', 'g', 'e', 's', '/'] := rfl
  rw [himg]
  have hsplit : Http.splitSlash (['/', 'i', 'm', 'a', 'g', 'e', 's', '/'] ++ id) =
      [[], ['i', 'm', 'a', 'g', 'e', 's'], id] := by
    simp [Http.splitSlash, Http.splitSlash_of_not_mem id hslash]
  have hclean : Http.pathClean (['/', 'i', 'm', 'a', 'g', 'e', 's', '/'] ++ id) =
      ['/', 'i', 'm', 'a', 'g', 'e', 's', '/'] ++ id := by
    unfold Http.pathClean
    rw [hsplit]
    simp [Http.cleanElems, hne, hdot, hdotdot, Http.joinElems]
  have hlast : ¬ ((['/', 'i', 'm', 'a', 'g', 'e', 's', '/'] ++ id).getLast? = some '/') := by
    intro h
    rw [List.getLast?_append] at h
    cases hid : id.getLast? with
    | none => exact hne (List.getLast?_eq_none_iff.mp hid)
    | some c =>
        rw [hid] at h
        simp at h
        exact hslash (List.mem_of_getLast?_eq_some (h ▸ hid))
  simp only [List.cons_append, List.nil_append] at hclean hlast ⊢
  simp at hlast
  unfold Http.cleanPath
  simp [hclean, hlast]

/-- Routing of `/images/<id>` on a mux with the two registrations of `main`. -/
theorem Http.dispatch_images (f1 f2 : HandlerFunc) (method id : String) (hne : id ≠ "")
    (hslash : '/' ∉ id.toList) (hdot : id ≠ ".") (hdotdot : id ≠ "..") :
    Http.dispatch [⟨"/images/", f1⟩, ⟨"/health", f2⟩] method ("/images/" ++ id) =
      .handler "/images/" f1 := by
  have h1 : id.toList ≠ [] := fun h => hne (String.ext_iff.mpr h)
  have h2 : id.toList ≠ ['.'] := fun h => hdot (String.ext_iff.mpr h)
  have h3 : id.toList ≠ ['.', '.'] := fun h => hdotdot (String.ext_iff.mpr h)
  have hpath : ("/images/" ++ id).toList = "/images/".toList ++ id.toList := by simp
  have hp : (if method = "CONNECT" then ("/images/" ++ id).toList
      else Http.cleanPath ("/images/" ++ id).toList) = "/images/".toList ++ id.toList := by
    rw [hpath, Http.cleanPath_images id.toList h1 hslash h2 h3]
    simp
  have hbest : Http.bestMatch [⟨"/images/", f1⟩, ⟨"/health", f2⟩]
      ("/images/".toList ++ id.toList) = some ⟨"/images/", f1⟩ := by
    simp [Http.bestMatch, Http.patternMatches]
  have hany : ([⟨"/images/", f1⟩, ⟨"/health", f2⟩] : List MuxEntry).any
      (fun e => e.pattern.toList == "/images/".toList ++ id.toList ++ ['/']) = false := by
    simp [h1]
  unfold Http.dispatch
  simp only [hp]
  simp only [hbest, hany]
  simp

/-- Routing of `/health` on a mux with the two registrations of `main`. -/
theorem Http.dispatch_health (f1 f2 : HandlerFunc) (method : String) :
    Http.dispatch [⟨"/images/", f1⟩, ⟨"/health", f2⟩] method "/health" =
      .handler "/health" f2 := by
  have hclean : Http.cleanPath "/health".toList = "/health".toList := by decide
  have hp : (if method = "CONNECT" then "/health".toList
      else Http.cleanPath "/health".toList) = "/health".toList := by
    rw [hclean]
    simp
  have hbest : Http.bestMatch [⟨"/images/", f1⟩, ⟨"/health", f2⟩] "/health".toList =
      some ⟨"/health", f2⟩ := by
    simp [Http.bestMatch, Http.patternMatches]
  unfold Http.dispatch
  simp only [hp]
  simp only [hbest]
  simp

/-- C3: on the HTTP surface wired by `main`, a request with any method whose
path is `"/images/" ++ id`, for a non-empty `id` without `/` that is neither
`.` nor `..`, is dispatched to the `ServeHTTP` method of the one handler `main`
constructed (so neither to `HealthCheck` nor to a redirect or the not-found
response). -/
theorem images_path_dispatch (env : Environ) (sig : Option Signal) (method id : String)
    (hne : id ≠ "") (hslash : '/' ∉ id.toList) (hdot : id ≠ ".") (hdotdot : id ≠ "..") :
    ∃ c, handlersBuilt (runMain ⟨env, none, none, sig⟩).trace = [c] ∧
      Http.dispatch (httpSurface (runMain ⟨env, none, none, sig⟩).trace) method
          ("/images/" ++ id) = .handler "/images/" ⟨c.handler, .ServeHTTP⟩ := by
  obtain ⟨-, -, h3, -, h5⟩ := wiring_of_startup env sig
  exact ⟨_, h3, by rw [h5]; exact Http.dispatch_images _ _ method id hne hslash hdot hdotdot⟩

/-- Instance of `images_path_dispatch`: `GET /images/abc` on the default
environment. -/
theorem images_path_dispatch_witness :
    ∃ c, handlersBuilt (runMain ⟨fun _ => none, none, none, some .SIGINT⟩).trace = [c] ∧
      Http.dispatch (httpSurface (runMain ⟨fun _ => none, none, none, some .SIGINT⟩).trace) "GET"
          ("/images/" ++ "abc") = .handler "/images/" ⟨c.handler, .ServeHTTP⟩ :=
  images_path_dispatch (fun _ => none) (some .SIGINT) "GET" "abc"
    (by decide) (by decide) (by decide) (by decide)

/-- C4: on the HTTP surface wired by `main`, a request with any method whose
path is exactly `/health` is dispatched to the `HealthCheck` method of the one
handler `main` constructed, not to `ServeHTTP`; the response of `HealthCheck`
has status 200 and is the same for every state of the two stores. -/
theorem health_dispatch (env : Environ) (sig : Option Signal) (method : String)
    (validate : String → List UInt8 → Bool) (s : Spec.Stores) :
    ∃ c, handlersBuilt (runMain ⟨env, none, none, sig⟩).trace = [c] ∧
      Http.dispatch (httpSurface (runMain ⟨env, none, none, sig⟩).trace) method "/health" =
        .handler "/health" ⟨c.handler, .HealthCheck⟩ ∧
      (∀ pattern, Http.dispatch (httpSurface (runMain ⟨env, none, none, sig⟩).trace) method
        "/health" ≠ .handler pattern ⟨c.handler, .ServeHTTP⟩) ∧
      ((c.toSpec validate).HealthCheck s).status = 200 ∧
      ∀ s1 : Spec.Stores, (c.toSpec validate).HealthCheck s1 = (c.toSpec validate).HealthCheck s := by
  obtain ⟨-, -, h3, -, h5⟩ := wiring_of_startup env sig
  refine ⟨_, h3, ?_, ?_, rfl, fun _ => rfl⟩
  · rw [h5]
    exact Http.dispatch_health _ _ method
  · intro pattern
    rw [h5, Http.dispatch_health]
    simp

/-- C6: with `base` the base URL `main` passes to `NewImageHandler`, for every
valid `(content_type, bytes)` and freshly generated identifier, `CreateImage`
succeeds and `GetImage` on the returned id yields a record whose `size_bytes`
is the length of `bytes` and whose `url` is `base ++ "/images/" ++ id`. -/
theorem create_then_get (env : Environ) (sig : Option Signal)
    (validate : String → List UInt8 → Bool) (s : Spec.Stores) (newId : String) (now : Nat)
    (content_type : String) (bytes : List UInt8)
    (hvalid : validate content_type bytes = true)
    (hcontent : s.content.lookup newId = none) (hmeta : s.metadata.lookup newId = none) :
    ∃ c, handlersBuilt (runMain ⟨env, none, none, sig⟩).trace = [c] ∧
      c.baseURL = getEnv env "BASE_URL" "http://localhost:8087" ∧
      ∃ rec s1,
        (c.toSpec validate).CreateImage s newId now content_type bytes = (.ok rec, s1) ∧
        ∃ got, (c.toSpec validate).GetImage s1 rec.id = .ok got ∧
          got.size_bytes = bytes.length ∧
          got.url = c.baseURL ++ "/images/" ++ rec.id := by
  obtain ⟨-, -, h3, -, -⟩ := wiring_of_startup env sig
  have hcreate : (HandlerCall.toSpec ⟨0, 1, baseURL env, 2⟩ validate).CreateImage s newId now
      content_type bytes =
      (.ok ⟨newId, content_type, bytes.length, now, baseURL env ++ "/images/" ++ newId⟩,
        ⟨(newId, bytes) :: s.content, (newId, ⟨content_type, bytes.length, now⟩) :: s.metadata⟩) := by
    simp [Spec.ImageHandler.CreateImage, Spec.ContentStore.Put, Spec.MetadataStore.Insert,
      HandlerCall.toSpec, hvalid, hcontent, hmeta, Spec.ImageHandler.url]
  have hget : (HandlerCall.toSpec ⟨0, 1, baseURL env, 2⟩ validate).GetImage
      ⟨(newId, bytes) :: s.content, (newId, ⟨content_type, bytes.length, now⟩) :: s.metadata⟩
      newId =
      .ok ⟨newId, content_type, bytes.length, now, baseURL env ++ "/images/" ++ newId⟩ := by
    simp [Spec.ImageHandler.GetImage, Spec.MetadataStore.Get, HandlerCall.toSpec,
      Spec.ImageHandler.url, List.lookup]
  exact ⟨_, h3, rfl, _, _, hcreate, _, hget, rfl, rfl⟩

/-- Instance of `create_then_get`: the four-byte PNG scenario on empty stores
and the default environment. -/
theorem create_then_get_witness :
    ∃ c, handlersBuilt (runMain ⟨fun _ => none, none, none, none⟩).trace = [c] ∧
      c.baseURL = getEnv (fun _ => none) "BASE_URL" "http://localhost:8087" ∧
      ∃ rec s1,
        (c.toSpec fun _ _ => true).CreateImage ⟨[], []⟩ "img-1" 0 "image/png"
            [0x89, 0x50, 0x4E, 0x47] = (.ok rec, s1) ∧
        ∃ got, (c.toSpec fun _ _ => true).GetImage s1 rec.id = .ok got ∧
          got.size_bytes = [(0x89 : UInt8), 0x50, 0x4E, 0x47].length ∧
          got.url = c.baseURL ++ "/images/" ++ rec.id :=
  create_then_get (fun _ => none) none (fun _ _ => true) ⟨[], []⟩ "img-1" 0 "image/png"
    [0x89, 0x50, 0x4E, 0x47] rfl rfl rfl

end ImageStore
